import Mathlib

/-!
# Verification of the Envoy worker connection plane and hot-restart IPC

Shallow embedding of the connection handler, shared-memory stats slots,
shared-memory lifecycle, watchdog, hot-restart domain sockets and the
hot-restart client RPC operations, translated from the C++ sources
(`connection_handler_impl.cc`, `hot_restart.cc`, `stats_impl.cc`,
`envoy/ssl/connection.h`), with theorems settling the specification claims.
-/

namespace Envoy

/-! ## Network addresses and `ConnectionHandlerImpl::findListenerByAddress` -/

namespace Network

/-- `Network::Address::Type`: an address is either an IP endpoint or a unix pipe. -/
inductive AddrType where
  | ip
  | pipe
deriving DecidableEq, Repr

/-- A resolved `Network::Address::Instance`: for IP addresses `host` is
`ip()->addressAsString()` and `port` is `ip()->port()`; for pipes `host` is the path. -/
structure Address where
  typ : AddrType
  host : String
  port : Nat
deriving DecidableEq, Repr

/-- `Address::Instance::asString()`: `"host:port"` for IP addresses, the path for pipes. -/
def Address.asString (a : Address) : String :=
  match a.typ with
  | AddrType.ip => a.host ++ ":" ++ toString a.port
  | AddrType.pipe => a.host

/-- One element of `ConnectionHandlerImpl::listeners_`: a (local address, listener) pair;
the listener itself is represented by a numeric handle. -/
structure ListenerEntry where
  addr : Address
  listenerId : Nat
deriving DecidableEq, Repr

/-- The first `find_if` predicate of `findListenerByAddress`:
`p.first->type() == Ip && p.first->asString() == address->asString()`. -/
def exactPred (addr : Address) (e : ListenerEntry) : Bool :=
  decide (e.addr.typ = AddrType.ip) && decide (e.addr.asString = addr.asString)

/-- The second `find_if` predicate of `findListenerByAddress`:
`type() == Ip && ip()->port() == address->ip()->port() && addressAsString() == "0.0.0.0"`. -/
def wildcardPred (addr : Address) (e : ListenerEntry) : Bool :=
  decide (e.addr.typ = AddrType.ip) && decide (e.addr.port = addr.port)
    && decide (e.addr.host = "0.0.0.0")

/-- `ConnectionHandlerImpl::findListenerByAddress`: linear scan for the exact
address-string match, then for the `0.0.0.0:[address_port]` wildcard match,
else `nullptr` (here `none`). -/
def findListenerByAddress (listeners : List ListenerEntry) (addr : Address) : Option Nat :=
  match listeners.find? (exactPred addr) with
  | some e => some e.listenerId
  | none => (listeners.find? (wildcardPred addr)).map (fun e => e.listenerId)

theorem exactPred_iff (addr : Address) (e : ListenerEntry) :
    exactPred addr e = true ↔ e.addr.typ = AddrType.ip ∧ e.addr.asString = addr.asString := by
  simp [exactPred]

theorem wildcardPred_iff (addr : Address) (e : ListenerEntry) :
    wildcardPred addr e = true ↔
      e.addr.typ = AddrType.ip ∧ e.addr.port = addr.port ∧ e.addr.host = "0.0.0.0" := by
  simp [wildcardPred, and_assoc]

end Network

/-- C2: `findListenerByAddress(addr)` returns the listener registered under an IP
address whose string form equals `addr`'s exactly, if one exists; otherwise the
listener registered on `0.0.0.0` with the same port as `addr`, if one exists;
otherwise null. -/
theorem C2_findListenerByAddress (listeners : List Network.ListenerEntry)
    (addr : Network.Address) :
    ((∃ e ∈ listeners, e.addr.typ = Network.AddrType.ip ∧ e.addr.asString = addr.asString) →
      ∃ e ∈ listeners, e.addr.typ = Network.AddrType.ip ∧ e.addr.asString = addr.asString ∧
        Network.findListenerByAddress listeners addr = some e.listenerId)
  ∧ ((∀ e ∈ listeners, ¬(e.addr.typ = Network.AddrType.ip ∧ e.addr.asString = addr.asString)) →
     (∃ e ∈ listeners, e.addr.typ = Network.AddrType.ip ∧ e.addr.port = addr.port ∧
        e.addr.host = "0.0.0.0") →
      ∃ e ∈ listeners, e.addr.typ = Network.AddrType.ip ∧ e.addr.port = addr.port ∧
        e.addr.host = "0.0.0.0" ∧
        Network.findListenerByAddress listeners addr = some e.listenerId)
  ∧ ((∀ e ∈ listeners, ¬(e.addr.typ = Network.AddrType.ip ∧ e.addr.asString = addr.asString)) →
     (∀ e ∈ listeners, ¬(e.addr.typ = Network.AddrType.ip ∧ e.addr.port = addr.port ∧
        e.addr.host = "0.0.0.0")) →
      Network.findListenerByAddress listeners addr = none) := by
  refine ⟨?_, ?_, ?_⟩
  · rintro ⟨e0, he0, hp0⟩
    have hsome : (listeners.find? (Network.exactPred addr)).isSome := by
      rw [List.find?_isSome]
      exact ⟨e0, he0, (Network.exactPred_iff addr e0).mpr hp0⟩
    obtain ⟨e, he⟩ := Option.isSome_iff_exists.mp hsome
    have hmem := List.mem_of_find?_eq_some he
    have hpred := (Network.exactPred_iff addr e).mp (List.find?_some he)
    refine ⟨e, hmem, hpred.1, hpred.2, ?_⟩
    simp [Network.findListenerByAddress, he]
  · intro hnone hex
    have hfind : listeners.find? (Network.exactPred addr) = none := by
      rw [List.find?_eq_none]
      intro x hx hpx
      exact hnone x hx ((Network.exactPred_iff addr x).mp hpx)
    obtain ⟨e0, he0, hp0⟩ := hex
    have hsome : (listeners.find? (Network.wildcardPred addr)).isSome := by
      rw [List.find?_isSome]
      exact ⟨e0, he0, (Network.wildcardPred_iff addr e0).mpr hp0⟩
    obtain ⟨e, he⟩ := Option.isSome_iff_exists.mp hsome
    have hmem := List.mem_of_find?_eq_some he
    have hpred := (Network.wildcardPred_iff addr e).mp (List.find?_some he)
    refine ⟨e, hmem, hpred.1, hpred.2.1, hpred.2.2, ?_⟩
    simp [Network.findListenerByAddress, hfind, he]
  · intro hnone1 hnone2
    have hfind1 : listeners.find? (Network.exactPred addr) = none := by
      rw [List.find?_eq_none]
      intro x hx hpx
      exact hnone1 x hx ((Network.exactPred_iff addr x).mp hpx)
    have hfind2 : listeners.find? (Network.wildcardPred addr) = none := by
      rw [List.find?_eq_none]
      intro x hx hpx
      exact hnone2 x hx ((Network.wildcardPred_iff addr x).mp hpx)
    simp [Network.findListenerByAddress, hfind1, hfind2]

/-- Witness for C2: with a wildcard listener and an exact listener registered, an
exact IP:port match exists and the theorem returns it. -/
theorem C2_findListenerByAddress_witness :
    ∃ e ∈ [Network.ListenerEntry.mk ⟨Network.AddrType.ip, "0.0.0.0", 80⟩ 7,
           Network.ListenerEntry.mk ⟨Network.AddrType.ip, "1.2.3.4", 80⟩ 9],
      e.addr.typ = Network.AddrType.ip ∧
      e.addr.asString = (Network.Address.mk Network.AddrType.ip "1.2.3.4" 80).asString ∧
      Network.findListenerByAddress
        [Network.ListenerEntry.mk ⟨Network.AddrType.ip, "0.0.0.0", 80⟩ 7,
         Network.ListenerEntry.mk ⟨Network.AddrType.ip, "1.2.3.4", 80⟩ 9]
        ⟨Network.AddrType.ip, "1.2.3.4", 80⟩ = some e.listenerId :=
  (C2_findListenerByAddress _ _).1 (by decide)

/-! ## Shared-memory stat slots: `Stats::RawStatData`, `HotRestartImpl::alloc` / `free`

`stats_impl.cc` gives `RawStatData::initialize` (here `initData`, renamed because the
source name collides with a reserved word of this development) and `RawStatData::matches`;
`hot_restart.cc` gives `HotRestartImpl::alloc` and `HotRestartImpl::free`.  The name buffer
`name_[MAX_NAME_SIZE + 1]` is a C string, modelled as a `String`; `strlcpy(dst, src, n)`
copies at most `n - 1` characters, so storing through `strlcpy(name_, s, MAX_NAME_SIZE + 1)`
keeps the first `MAX_NAME_SIZE` characters.  `MAX_NAME_SIZE` is a constant whose value the
sources shown do not fix, so everything is parametric in `max`. -/

namespace Stats

/-- One shared-memory stat slot.  Besides the ref-count and the name buffer a slot holds
counter/gauge value fields, represented here by a single `value` field; `free` zeroes them
together with the rest of the slot (`memset(&data, 0, sizeof(RawStatData))`). -/
structure RawStatData where
  refCount : Nat
  name : String
  value : Nat
deriving DecidableEq, Repr

/-- The all-zero slot: the state produced by `memset(&data, 0, sizeof(RawStatData))`. -/
def zeroSlot : RawStatData := ⟨0, "", 0⟩

/-- Truncation of a candidate name at `max` characters, as performed by
`name.substr(0, MAX_NAME_SIZE)` and by `strlcpy` with bound `MAX_NAME_SIZE + 1`. -/
def truncateName (max : Nat) (s : String) : String := String.mk (s.data.take max)

/-- Modelled from the spec: `RawStatData::initialized()` is declared in a header that is
not among the source files (only its callers are).  Per the spec an uninitialized slot is
an "empty" slot and `free` restores the uninitialized state by zeroing the slot, so a slot
is initialized exactly when its stored name is nonempty. -/
def RawStatData.initialized (d : RawStatData) : Bool := decide (d.name ≠ "")

/-- `RawStatData::initialize(name)`: sets `ref_count_ = 1` and stores the name truncated
at `MAX_NAME_SIZE` (the value fields were already zero, the slot being uninitialized). -/
def initData (max : Nat) (name : String) (d : RawStatData) : RawStatData :=
  { d with refCount := 1, name := truncateName max name }

/-- `RawStatData::matches(name)`: compares the candidate truncated at `MAX_NAME_SIZE`
against the stored (possibly truncated) name with `strcmp`. -/
def RawStatData.matches (max : Nat) (name : String) (d : RawStatData) : Bool :=
  decide (truncateName max name = d.name)

/-- `HotRestartImpl::alloc(name)`: scan `stats_slots_` in order; at the first slot that is
not initialized, initialize it and return it; at the first initialized slot that matches,
bump its ref-count and return it; return `nullptr` (`none`) if the scan finds neither.
The result pairs the updated slot array with the index of the returned slot. -/
def alloc (max : Nat) (name : String) : List RawStatData → Option (List RawStatData × Nat)
  | [] => none
  | d :: rest =>
    if !(RawStatData.initialized d) then
      some (initData max name d :: rest, 0)
    else if RawStatData.matches max name d then
      some ({ d with refCount := d.refCount + 1 } :: rest, 0)
    else
      (alloc max name rest).map (fun p => (d :: p.1, p.2 + 1))

/-- `HotRestartImpl::free(data)`: decrement the ref-count (`ASSERT(ref_count_ > 0)` guards
the call, and `ref_count_` is an unsigned machine integer, so for `ref_count_ > 0` the
decrement is plain subtraction); when the decrement reaches zero, zero the whole slot. -/
def free (d : RawStatData) : RawStatData :=
  if d.refCount - 1 > 0 then { d with refCount := d.refCount - 1 } else zeroSlot

/-- Invariant 3 of the spec for a single slot: positive ref-count iff initialized. -/
def slotInvariant (d : RawStatData) : Prop := 0 < d.refCount ↔ RawStatData.initialized d = true

theorem truncateName_ne_empty {max : Nat} {s : String} (hmax : 1 ≤ max) (hs : s ≠ "") :
    truncateName max s ≠ "" := by
  intro h
  apply hs
  have hdata : (s.data.take max) = ("" : String).data := congrArg String.data h
  simp only [String.data] at hdata
  rcases List.take_eq_nil_iff.mp hdata with h1 | h2
  · omega
  · cases s with
    | mk data => simp_all

theorem initData_initialized {max : Nat} {name : String} (d : RawStatData)
    (hmax : 1 ≤ max) (hname : name ≠ "") :
    RawStatData.initialized (initData max name d) = true := by
  simp only [RawStatData.initialized, initData, decide_eq_true_iff]
  exact truncateName_ne_empty hmax hname

theorem alloc_cons (max : Nat) (name : String) (d : RawStatData) (rest : List RawStatData) :
    alloc max name (d :: rest) =
      if !(RawStatData.initialized d) then
        some (initData max name d :: rest, 0)
      else if RawStatData.matches max name d then
        some ({ d with refCount := d.refCount + 1 } :: rest, 0)
      else
        (alloc max name rest).map (fun p => (d :: p.1, p.2 + 1)) := rfl

/-- Helper for C1 and C9: `alloc` never returns `none` on a list holding an uninitialized
or matching slot, and the updated list differs from the input in exactly the returned
position. -/
theorem alloc_characterization (max : Nat) (name : String) :
    ∀ (slots slots2 : List RawStatData) (i : Nat),
      alloc max name slots = some (slots2, i) →
        (∀ j, j < i → ∃ d, slots[j]? = some d ∧
          RawStatData.initialized d = true ∧ RawStatData.matches max name d = false)
      ∧ (∃ d, slots[i]? = some d ∧
          ((RawStatData.initialized d = false ∧ slots2 = slots.set i (initData max name d))
         ∨ (RawStatData.initialized d = true ∧ RawStatData.matches max name d = true ∧
            slots2 = slots.set i { d with refCount := d.refCount + 1 }))) := by
  intro slots
  induction slots with
  | nil => intro slots2 i h; simp [alloc] at h
  | cons d rest ih =>
    intro slots2 i h
    rw [alloc_cons] at h
    by_cases h1 : RawStatData.initialized d = true
    · rw [if_neg (by simp [h1])] at h
      by_cases h2 : RawStatData.matches max name d = true
      · rw [if_pos h2] at h
        simp only [Option.some.injEq, Prod.mk.injEq] at h
        obtain ⟨hl, hi⟩ := h
        subst hi
        refine ⟨by omega, d, by simp, Or.inr ⟨h1, h2, ?_⟩⟩
        simp [← hl]
      · rw [if_neg h2] at h
        rcases hr : alloc max name rest with _ | p
        · rw [hr] at h; simp at h
        · rw [hr] at h
          simp only [Option.map_some', Option.some.injEq, Prod.mk.injEq] at h
          obtain ⟨hl, hi⟩ := h
          obtain ⟨hbefore, e, he, hcase⟩ := ih p.1 p.2 (by rw [hr])
          constructor
          · intro j hj
            cases j with
            | zero =>
              exact ⟨d, by simp, h1, by simp [h2]⟩
            | succ k =>
              have hk : k < p.2 := by omega
              obtain ⟨dk, hdk, hdk2⟩ := hbefore k hk
              exact ⟨dk, by simpa using hdk, hdk2⟩
          · refine ⟨e, ?_, ?_⟩
            · rw [← hi]; simpa using he
            · rw [← hi, ← hl]
              rcases hcase with ⟨hc1, hc2⟩ | ⟨hc1, hc2, hc3⟩
              · exact Or.inl ⟨hc1, by simp [hc2]⟩
              · exact Or.inr ⟨hc1, hc2, by simp [hc3]⟩
    · rw [if_pos (by simp [Bool.eq_false_iff.mpr h1])] at h
      simp only [Option.some.injEq, Prod.mk.injEq] at h
      obtain ⟨hl, hi⟩ := h
      subst hi
      refine ⟨by omega, d, by simp, Or.inl ⟨Bool.eq_false_iff.mpr h1, ?_⟩⟩
      simp [← hl]

/-- Helper for C1: `alloc` returns `none` exactly when every slot is initialized and
none matches. -/
theorem alloc_eq_none_iff (max : Nat) (name : String) (slots : List RawStatData) :
    alloc max name slots = none ↔
      ∀ d ∈ slots, RawStatData.initialized d = true ∧
        RawStatData.matches max name d = false := by
  induction slots with
  | nil => simp [alloc]
  | cons d rest ih =>
    by_cases h1 : RawStatData.initialized d
    · by_cases h2 : RawStatData.matches max name d
      · simp [alloc, h1, h2]
      · simp [alloc, h1, h2, Option.map_eq_none', ih]
    · simp [alloc, h1]

/-- Helper for C9: `alloc` preserves the per-slot invariant when the requested name is
nonempty (stat names are generated nonempty) and the name buffer holds at least one
character. -/
theorem alloc_preserves_invariant (max : Nat) (name : String)
    (hmax : 1 ≤ max) (hname : name ≠ "") :
    ∀ (slots slots2 : List RawStatData) (i : Nat),
      (∀ d ∈ slots, slotInvariant d) →
      alloc max name slots = some (slots2, i) →
      ∀ d ∈ slots2, slotInvariant d := by
  intro slots
  induction slots with
  | nil => intro slots2 i _ h; simp [alloc] at h
  | cons d rest ih =>
    intro slots2 i hinv h
    rw [alloc_cons] at h
    by_cases h1 : RawStatData.initialized d = true
    · rw [if_neg (by simp [h1])] at h
      by_cases h2 : RawStatData.matches max name d = true
      · rw [if_pos h2] at h
        simp only [Option.some.injEq, Prod.mk.injEq] at h
        obtain ⟨hl, _⟩ := h
        intro e he
        rw [← hl] at he
        rcases List.mem_cons.mp he with rfl | hmem
        · constructor
          · intro _; exact h1
          · intro _; exact Nat.succ_pos _
        · exact hinv e (List.mem_cons_of_mem d hmem)
      · rw [if_neg h2] at h
        rcases hr : alloc max name rest with _ | p
        · rw [hr] at h; simp at h
        · rw [hr] at h
          simp only [Option.map_some', Option.some.injEq, Prod.mk.injEq] at h
          obtain ⟨hl, _⟩ := h
          have hrest : ∀ e ∈ p.1, slotInvariant e :=
            ih p.1 p.2 (fun e he => hinv e (List.mem_cons_of_mem d he)) (by rw [hr])
          intro e he
          rw [← hl] at he
          rcases List.mem_cons.mp he with rfl | hmem
          · exact hinv e (List.mem_cons_self e rest)
          · exact hrest e hmem
    · rw [if_pos (by simp [Bool.eq_false_iff.mpr h1])] at h
      simp only [Option.some.injEq, Prod.mk.injEq] at h
      obtain ⟨hl, _⟩ := h
      intro e he
      rw [← hl] at he
      rcases List.mem_cons.mp he with rfl | hmem
      · constructor
        · intro _; exact initData_initialized d hmax hname
        · intro _; simp [initData]
      · exact hinv e (List.mem_cons_of_mem d hmem)

end Stats

/-- C1 counterexample: with slot 0 free (zeroed by an earlier `free`) and slot 1 holding
stat name `"a"`, `alloc("a")` does not return the matching slot 1 with its ref-count
incremented; it initializes and returns slot 0, leaving slot 1's ref-count at 1. -/
theorem C1_counterexample :
    Stats.RawStatData.matches 8 "a" (Stats.initData 8 "a" Stats.zeroSlot) = true
  ∧ Stats.RawStatData.matches 8 "a" Stats.zeroSlot = false
  ∧ (Stats.RawStatData.initialized Stats.zeroSlot = false)
  ∧ Stats.alloc 8 "a" [Stats.zeroSlot, Stats.initData 8 "a" Stats.zeroSlot] =
      some ([Stats.initData 8 "a" Stats.zeroSlot, Stats.initData 8 "a" Stats.zeroSlot], 0)
  ∧ (Stats.initData 8 "a" Stats.zeroSlot).refCount = 1 := by
  refine ⟨by decide, by decide, by decide, ?_, by decide⟩
  decide

/-- C1 (amended): `alloc(name)` scans the slots in order and acts on the first slot that
is either uninitialized (initializing it with the truncated name and returning it) or
whose stored name matches the truncated name (incrementing its ref-count and returning
it); it returns null exactly when every slot is initialized and none matches.  A matching
slot is returned only when no uninitialized slot precedes it. -/
theorem C1_alloc_first_available (max : Nat) (name : String) (slots : List Stats.RawStatData) :
    (Stats.alloc max name slots = none ↔
      ∀ d ∈ slots, Stats.RawStatData.initialized d = true ∧
        Stats.RawStatData.matches max name d = false)
  ∧ (∀ (slots2 : List Stats.RawStatData) (i : Nat),
      Stats.alloc max name slots = some (slots2, i) →
        (∀ j, j < i → ∃ d, slots[j]? = some d ∧
          Stats.RawStatData.initialized d = true ∧
          Stats.RawStatData.matches max name d = false)
      ∧ (∃ d, slots[i]? = some d ∧
          ((Stats.RawStatData.initialized d = false ∧
            slots2 = slots.set i (Stats.initData max name d))
         ∨ (Stats.RawStatData.initialized d = true ∧
            Stats.RawStatData.matches max name d = true ∧
            slots2 = slots.set i { d with refCount := d.refCount + 1 })))) :=
  ⟨Stats.alloc_eq_none_iff max name slots,
   fun slots2 i h => Stats.alloc_characterization max name slots slots2 i h⟩

/-- Witness for C1: on a region whose only slot holds `"a"` with ref-count 1, `alloc "a"`
returns that slot with ref-count 2, and the characterization identifies it. -/
theorem C1_alloc_first_available_witness :
    ∃ d, [Stats.initData 8 "a" Stats.zeroSlot][0]? = some d ∧
      ((Stats.RawStatData.initialized d = false ∧
        [{ Stats.initData 8 "a" Stats.zeroSlot with refCount := 2 }] =
          [Stats.initData 8 "a" Stats.zeroSlot].set 0 (Stats.initData 8 "a" d))
     ∨ (Stats.RawStatData.initialized d = true ∧
        Stats.RawStatData.matches 8 "a" d = true ∧
        [{ Stats.initData 8 "a" Stats.zeroSlot with refCount := 2 }] =
          [Stats.initData 8 "a" Stats.zeroSlot].set 0 { d with refCount := d.refCount + 1 })) :=
  ((C1_alloc_first_available 8 "a" [Stats.initData 8 "a" Stats.zeroSlot]).2
    [{ Stats.initData 8 "a" Stats.zeroSlot with refCount := 2 }] 0 (by decide)).2

/-- C9: the stat-slot invariant: `ref_count > 0` iff `initialized()`; `initialize` stores
the name truncated at `MAX_NAME_SIZE` with ref-count 1; `matches` compares the candidate
truncated at `MAX_NAME_SIZE` against the stored (possibly truncated) name; `free` requires
`ref_count > 0` and zeroes the whole slot when the decrement reaches zero; the invariant
is preserved by `alloc` and `free` (names allocated are nonempty). -/
theorem C9_slot_invariant (max : Nat) (name : String) (d : Stats.RawStatData)
    (slots slots2 : List Stats.RawStatData) (i : Nat)
    (hmax : 1 ≤ max) (hname : name ≠ "") :
    Stats.slotInvariant Stats.zeroSlot
  ∧ ((Stats.initData max name d).refCount = 1
      ∧ (Stats.initData max name d).name = Stats.truncateName max name
      ∧ Stats.RawStatData.initialized (Stats.initData max name d) = true
      ∧ Stats.slotInvariant (Stats.initData max name d))
  ∧ (∀ name2, Stats.RawStatData.matches max name2 (Stats.initData max name d) = true
        ↔ Stats.truncateName max name2 = Stats.truncateName max name)
  ∧ (0 < d.refCount →
       ((d.refCount = 1 → Stats.free d = Stats.zeroSlot)
      ∧ (1 < d.refCount → Stats.free d = { d with refCount := d.refCount - 1 })
      ∧ (Stats.slotInvariant d → Stats.slotInvariant (Stats.free d))))
  ∧ ((∀ e ∈ slots, Stats.slotInvariant e) →
      Stats.alloc max name slots = some (slots2, i) →
      ∀ e ∈ slots2, Stats.slotInvariant e) := by
  refine ⟨?_, ⟨rfl, rfl, Stats.initData_initialized d hmax hname, ?_⟩, ?_, ?_, ?_⟩
  · simp [Stats.slotInvariant, Stats.zeroSlot, Stats.RawStatData.initialized]
  · constructor
    · intro _; exact Stats.initData_initialized d hmax hname
    · intro _; simp [Stats.initData]
  · intro name2
    simp [Stats.RawStatData.matches, Stats.initData]
  · intro hpos
    refine ⟨?_, ?_, ?_⟩
    · intro h1; simp [Stats.free, h1]
    · intro h1; rw [Stats.free, if_pos (by omega)]
    · intro hinv
      by_cases h1 : d.refCount = 1
      · rw [show Stats.free d = Stats.zeroSlot by simp [Stats.free, h1]]
        simp [Stats.slotInvariant, Stats.zeroSlot, Stats.RawStatData.initialized]
      · rw [show Stats.free d = { d with refCount := d.refCount - 1 } by
          rw [Stats.free, if_pos (by omega)]]
        constructor
        · intro _; exact hinv.mp hpos
        · intro _
          show 0 < d.refCount - 1
          omega
  · exact Stats.alloc_preserves_invariant max name hmax hname slots slots2 i

/-- Witness for C9 at `max = 4`, `name = "a"`, a one-slot region: the hypotheses hold and
the allocated slot satisfies the invariant. -/
theorem C9_slot_invariant_witness :
    1 ≤ 4 ∧ "a" ≠ "" ∧
    ∀ e ∈ [Stats.initData 4 "a" Stats.zeroSlot], Stats.slotInvariant e :=
  ⟨by decide, by decide,
   (C9_slot_invariant 4 "a" Stats.zeroSlot [Stats.zeroSlot]
      [Stats.initData 4 "a" Stats.zeroSlot] 0 (by decide) (by decide)).2.2.2.2
     (by intro e he
         simp only [List.mem_singleton] at he
         subst he
         simp [Stats.slotInvariant, Stats.zeroSlot, Stats.RawStatData.initialized])
     (by decide)⟩

/-! ## `SharedMemory::initialize` (`hot_restart.cc`) -/

namespace Shm

/-- `SharedMemory::VERSION`, bumped on any layout / RPC change. -/
def VERSION : Nat := 5

/-- The stamped header of the shared-memory region: `size_`, `version_` and the three
process-shared robust mutexes (log, access-log, stats), each represented by whether
`initializeMutex` has run on it.  The stat slots live behind this header and are modelled
separately (`Stats.RawStatData`). -/
structure ShmRegion where
  size : Nat
  version : Nat
  logLockInit : Bool
  accessLogLockInit : Bool
  statLockInit : Bool
deriving DecidableEq, Repr

/-- The system calls `SharedMemory::initialize` issues, in order.  `shmOpen` always passes
`O_RDWR`; `creat`/`excl` record `O_CREAT` / `O_EXCL`.  `mmapReadWrite` is
`mmap(PROT_READ | PROT_WRITE, MAP_SHARED)`. -/
inductive ShmAction where
  | shmUnlink
  | shmOpen (creat : Bool) (excl : Bool)
  | ftruncateTo (n : Nat)
  | mmapReadWrite
deriving DecidableEq, Repr

/-- `SharedMemory::initialize(options)`, parametric in `sz = sizeof(SharedMemory)`.
`epoch = options.restartEpoch()`; `existing` is the region published under
`/envoy_shared_memory_<base_id>` before the call (`none` when absent).  Epoch 0 unlinks
any stale region, creates with `O_CREAT | O_EXCL`, truncates to `sz` and stamps the
header; later epochs attach the existing region read/write and `RELEASE_ASSERT` that the
stored size and version match (an `Except.error` models the fatal abort; a missing region
makes `shm_open` fail, which is the `PANIC` path). -/
def shmInit (sz : Nat) (epoch : Nat) (existing : Option ShmRegion) :
    List ShmAction × Except String ShmRegion :=
  if epoch = 0 then
    ([ShmAction.shmUnlink, ShmAction.shmOpen true true, ShmAction.ftruncateTo sz,
      ShmAction.mmapReadWrite],
     Except.ok { size := sz, version := VERSION,
                 logLockInit := true, accessLogLockInit := true, statLockInit := true })
  else
    match existing with
    | none => ([ShmAction.shmOpen false false],
               Except.error "cannot open shared memory region")
    | some r =>
      ([ShmAction.shmOpen false false, ShmAction.mmapReadWrite],
       if r.size = sz ∧ r.version = VERSION then Except.ok r
       else Except.error "RELEASE_ASSERT: size/version mismatch")

end Shm

/-- C3: epoch 0 unlinks any stale region, creates with `shm_open(O_CREAT | O_EXCL)`,
truncates to `sizeof(SharedMemory)` and stamps `size_` and `version_` (`VERSION = 5`);
epoch > 0 attaches the existing region read/write and aborts exactly when the stored
version or size differs, so a version mismatch is always detected and fatal. -/
theorem C3_sharedMemory_lifecycle (sz epoch : Nat) (existing : Option Shm.ShmRegion)
    (r : Shm.ShmRegion) (hepoch : 0 < epoch) :
    Shm.VERSION = 5
  ∧ (Shm.shmInit sz 0 existing =
      ([Shm.ShmAction.shmUnlink, Shm.ShmAction.shmOpen true true,
        Shm.ShmAction.ftruncateTo sz, Shm.ShmAction.mmapReadWrite],
       Except.ok { size := sz, version := 5, logLockInit := true,
                   accessLogLockInit := true, statLockInit := true }))
  ∧ ((Shm.shmInit sz epoch (some r)).1 =
      [Shm.ShmAction.shmOpen false false, Shm.ShmAction.mmapReadWrite])
  ∧ ((Shm.shmInit sz epoch (some r)).2 = Except.ok r ↔
      (r.version = Shm.VERSION ∧ r.size = sz))
  ∧ (¬(r.version = Shm.VERSION ∧ r.size = sz) →
      (Shm.shmInit sz epoch (some r)).2 =
        Except.error "RELEASE_ASSERT: size/version mismatch")
  ∧ ((Shm.shmInit sz epoch none).2 = Except.error "cannot open shared memory region") := by
  have hne : epoch ≠ 0 := by omega
  refine ⟨rfl, rfl, ?_, ?_, ?_, ?_⟩
  · simp [Shm.shmInit, hne]
  · by_cases hok : r.size = sz ∧ r.version = Shm.VERSION
    · simp [Shm.shmInit, hne, hok]
    · rw [Shm.shmInit, if_neg hne]
      simp only [if_neg hok]
      constructor
      · intro h; cases h
      · intro h; exact absurd ⟨h.2, h.1⟩ hok
  · intro hmis
    rw [Shm.shmInit, if_neg hne]
    simp only []
    rw [if_neg (by tauto)]
  · simp [Shm.shmInit, hne]

/-- Witness for C3 at `sz = 100`, `epoch = 1`, a matching region: attach succeeds exactly
because the stored version and size match. -/
theorem C3_sharedMemory_lifecycle_witness :
    0 < 1 ∧
    ((Shm.shmInit 100 1 (some ⟨100, 5, true, true, true⟩)).2 =
        Except.ok (⟨100, 5, true, true, true⟩ : Shm.ShmRegion) ↔
      ((⟨100, 5, true, true, true⟩ : Shm.ShmRegion).version = Shm.VERSION ∧
       (⟨100, 5, true, true, true⟩ : Shm.ShmRegion).size = 100)) :=
  ⟨by decide,
   (C3_sharedMemory_lifecycle 100 1 none ⟨100, 5, true, true, true⟩ (by decide)).2.2.2.1⟩

/-! ## Connection handler: `ActiveListener::onNewConnection`, `ActiveConnection`
(`connection_handler_impl.cc`) -/

namespace Handler

/-- `Network::Connection::State`. -/
inductive ConnState where
  | Open
  | Closing
  | Closed
deriving DecidableEq, Repr

/-- `Network::ConnectionCloseType`. -/
inductive CloseType where
  | NoFlush
  | FlushWrite
deriving DecidableEq, Repr

/-- The worker-local handler state touched by `onNewConnection`: `connections_`
(connections by handle) and `num_connections_`. -/
structure HandlerState where
  connections : List Nat
  numConnections : Nat
deriving DecidableEq, Repr

/-- What `ActiveListener::onNewConnection` did with the new connection. -/
inductive NewConnOutcome where
  | closedNoFlush
  | admitted
  | diedInFactory
deriving DecidableEq, Repr

/-- `ConnectionHandlerImpl::ActiveListener::onNewConnection`, after
`factory_.createFilterChain` has run: `stateAfterFactory` is the connection state it left
behind and `emptyFilterChain` the negated factory result.  A connection already `Closed`
is left alone; an empty chain closes with `NoFlush`; otherwise the connection is wrapped
in an `ActiveConnection`, moved onto `parent_.connections_`, and `num_connections_` is
incremented. -/
def onNewConnection (stateAfterFactory : ConnState) (emptyFilterChain : Bool)
    (connId : Nat) (h : HandlerState) : HandlerState × NewConnOutcome :=
  if stateAfterFactory ≠ ConnState.Closed then
    if emptyFilterChain then (h, NewConnOutcome.closedNoFlush)
    else ({ connections := connId :: h.connections,
            numConnections := h.numConnections + 1 }, NewConnOutcome.admitted)
  else (h, NewConnOutcome.diedInFactory)

/-- The per-listener stats bundle as far as an `ActiveConnection` touches it:
`downstream_cx_total`, `downstream_cx_active` (a gauge, decremented at destruction),
`downstream_cx_destroy`, and the number of completed connection-length timing spans. -/
structure ListenerStats where
  cxTotal : Nat
  cxActive : Int
  cxDestroy : Nat
  lengthSpansCompleted : Nat
deriving DecidableEq, Repr

/-- `ActiveConnection::ActiveConnection`: increments `downstream_cx_total_` and
`downstream_cx_active_` (once each); it also allocates the connection-length span and
sets TCP no-delay, which do not touch these counters. -/
def activeConnectionCtor (s : ListenerStats) : ListenerStats :=
  { s with cxTotal := s.cxTotal + 1, cxActive := s.cxActive + 1 }

/-- `ActiveConnection::~ActiveConnection`: decrements `downstream_cx_active_`, increments
`downstream_cx_destroy_`, completes the connection-length span. -/
def activeConnectionDtor (s : ListenerStats) : ListenerStats :=
  { s with cxActive := s.cxActive - 1, cxDestroy := s.cxDestroy + 1,
           lengthSpansCompleted := s.lengthSpansCompleted + 1 }

/-- The operations of `ConnectionHandlerImpl` (one constructor per member function in the
source, plus the `ActiveConnection` constructor/destructor pair through which all
per-connection stats flow).  `closeConnections` and `removeConnection` themselves only
close / unlink connections; the counter updates they eventually cause happen inside the
destructor, i.e. as separate `destroyActiveConnection` steps. -/
inductive HandlerOp where
  | constructActiveConnection
  | destroyActiveConnection
  | onNewConnectionDispatch
  | removeConnectionOp
  | closeConnectionsOp
  | closeListenersOp
  | findListenerByAddressOp
  | addListenerOp
  | addSslListenerOp
  | startWatchdogOp
deriving DecidableEq, Repr

/-- Effect of each handler operation on a listener's stats bundle, read off the source:
only the `ActiveConnection` constructor and destructor touch these fields. -/
def listenerStatsEffect : HandlerOp → ListenerStats → ListenerStats
  | HandlerOp.constructActiveConnection, s => activeConnectionCtor s
  | HandlerOp.destroyActiveConnection, s => activeConnectionDtor s
  | _, s => s

end Handler

/-- C4: a connection not already `Closed` after the filter-chain factory runs is closed
immediately with `NoFlush` and kept off the active list when the chain is empty, and
otherwise is wrapped, placed on the handler's list, with `num_connections_` incremented. -/
theorem C4_onNewConnection (st : Handler.ConnState) (emptyChain : Bool) (connId : Nat)
    (h : Handler.HandlerState) (hst : st ≠ Handler.ConnState.Closed) :
    (emptyChain = true →
      Handler.onNewConnection st emptyChain connId h = (h, Handler.NewConnOutcome.closedNoFlush))
  ∧ (emptyChain = false →
      Handler.onNewConnection st emptyChain connId h =
        ({ connections := connId :: h.connections,
           numConnections := h.numConnections + 1 }, Handler.NewConnOutcome.admitted)) := by
  constructor
  · intro he; simp [Handler.onNewConnection, hst, he]
  · intro he; simp [Handler.onNewConnection, hst, he]

/-- Witness for C4: an `Open` connection with an empty filter chain is closed `NoFlush`
and the handler state is untouched. -/
theorem C4_onNewConnection_witness :
    Handler.onNewConnection Handler.ConnState.Open true 3 ⟨[7], 1⟩ =
      (⟨[7], 1⟩, Handler.NewConnOutcome.closedNoFlush) :=
  (C4_onNewConnection Handler.ConnState.Open true 3 ⟨[7], 1⟩ (by decide)).1 rfl

/-- C5: the `ActiveConnection` constructor increments `downstream_cx_total` and
`downstream_cx_active` exactly once each; the destructor decrements
`downstream_cx_active` exactly once, increments `downstream_cx_destroy` exactly once and
completes the connection-length span; no other handler operation changes these
counters. -/
theorem C5_connection_counters (s : Handler.ListenerStats) (op : Handler.HandlerOp) :
    ((Handler.activeConnectionCtor s).cxTotal = s.cxTotal + 1
   ∧ (Handler.activeConnectionCtor s).cxActive = s.cxActive + 1
   ∧ (Handler.activeConnectionCtor s).cxDestroy = s.cxDestroy
   ∧ (Handler.activeConnectionCtor s).lengthSpansCompleted = s.lengthSpansCompleted)
  ∧ ((Handler.activeConnectionDtor s).cxActive = s.cxActive - 1
   ∧ (Handler.activeConnectionDtor s).cxDestroy = s.cxDestroy + 1
   ∧ (Handler.activeConnectionDtor s).cxTotal = s.cxTotal
   ∧ (Handler.activeConnectionDtor s).lengthSpansCompleted = s.lengthSpansCompleted + 1)
  ∧ (op ≠ Handler.HandlerOp.constructActiveConnection →
     op ≠ Handler.HandlerOp.destroyActiveConnection →
      Handler.listenerStatsEffect op s = s) := by
  refine ⟨⟨rfl, rfl, rfl, rfl⟩, ⟨rfl, rfl, rfl, rfl⟩, ?_⟩
  intro h1 h2
  cases op <;> simp_all [Handler.listenerStatsEffect]

/-- Witness for C5: `closeListeners` leaves a concrete stats bundle unchanged. -/
theorem C5_connection_counters_witness :
    Handler.listenerStatsEffect Handler.HandlerOp.closeListenersOp ⟨4, 2, 2, 2⟩ =
      (⟨4, 2, 2, 2⟩ : Handler.ListenerStats) :=
  (C5_connection_counters ⟨4, 2, 2, 2⟩ Handler.HandlerOp.closeListenersOp).2.2
    (by decide) (by decide)

/-! ## `ConnectionHandlerImpl::startWatchdog` (`connection_handler_impl.cc`) -/

namespace Watchdog

/-- The state the watchdog callback reads and writes: `last_watchdog_time_`, the two
counters `server.watchdog_miss` / `server.watchdog_mega_miss`, and the pending timer
deadline.  Times are wall-clock milliseconds (`std::chrono::system_clock`), signed
because the clock is not monotonic. -/
structure WatchdogState where
  lastWatchdogTime : Int
  missCount : Nat
  megaMissCount : Nat
  timerArmedMs : Option Nat
deriving DecidableEq, Repr

/-- The timer callback installed by `startWatchdog`: sample the delta since the previous
firing, increment `server.watchdog_miss` when it exceeds 200 ms and
`server.watchdog_mega_miss` when it exceeds 1000 ms, record the current time, re-arm the
timer for 100 ms. -/
def watchdogFireCb (now : Int) (s : WatchdogState) : WatchdogState :=
  let delta := now - s.lastWatchdogTime
  { lastWatchdogTime := now,
    missCount := if delta > 200 then s.missCount + 1 else s.missCount,
    megaMissCount := if delta > 1000 then s.megaMissCount + 1 else s.megaMissCount,
    timerArmedMs := some 100 }

/-- The tail of `ConnectionHandlerImpl::startWatchdog`: record the current time and arm
the timer for 100 ms (counters untouched). -/
def startWatchdog (now : Int) (s : WatchdogState) : WatchdogState :=
  { s with lastWatchdogTime := now, timerArmedMs := some 100 }

end Watchdog

/-- C7: the watchdog timer is re-armed for 100 ms on start and on every firing; each
firing samples the wall-clock delta since the previous firing, increments
`server.watchdog_miss` exactly when the delta exceeds 200 ms and
`server.watchdog_mega_miss` exactly when it exceeds 1000 ms. -/
theorem C7_watchdog (now : Int) (s : Watchdog.WatchdogState) :
    ((Watchdog.watchdogFireCb now s).timerArmedMs = some 100
   ∧ (Watchdog.watchdogFireCb now s).lastWatchdogTime = now)
  ∧ (now - s.lastWatchdogTime > 200 →
      (Watchdog.watchdogFireCb now s).missCount = s.missCount + 1)
  ∧ (now - s.lastWatchdogTime ≤ 200 →
      (Watchdog.watchdogFireCb now s).missCount = s.missCount)
  ∧ (now - s.lastWatchdogTime > 1000 →
      (Watchdog.watchdogFireCb now s).megaMissCount = s.megaMissCount + 1)
  ∧ (now - s.lastWatchdogTime ≤ 1000 →
      (Watchdog.watchdogFireCb now s).megaMissCount = s.megaMissCount)
  ∧ ((Watchdog.startWatchdog now s).timerArmedMs = some 100
   ∧ (Watchdog.startWatchdog now s).lastWatchdogTime = now
   ∧ (Watchdog.startWatchdog now s).missCount = s.missCount
   ∧ (Watchdog.startWatchdog now s).megaMissCount = s.megaMissCount) := by
  refine ⟨⟨rfl, rfl⟩, ?_, ?_, ?_, ?_, rfl, rfl, rfl, rfl⟩
  · intro h; simp [Watchdog.watchdogFireCb, h]
  · intro h; simp [Watchdog.watchdogFireCb, (show ¬(now - s.lastWatchdogTime > 200) by omega)]
  · intro h; simp [Watchdog.watchdogFireCb, h]
  · intro h; simp [Watchdog.watchdogFireCb, (show ¬(now - s.lastWatchdogTime > 1000) by omega)]

/-- Witness for C7: a firing 350 ms after the previous one counts a miss but no mega
miss. -/
theorem C7_watchdog_witness :
    (Watchdog.watchdogFireCb 1350 ⟨1000, 0, 0, some 100⟩).missCount = 0 + 1 ∧
    (Watchdog.watchdogFireCb 1350 ⟨1000, 0, 0, some 100⟩).megaMissCount = 0 :=
  ⟨(C7_watchdog 1350 ⟨1000, 0, 0, some 100⟩).2.1 (by decide),
   (C7_watchdog 1350 ⟨1000, 0, 0, some 100⟩).2.2.2.2.1 (by decide)⟩

/-! ## Hot-restart domain sockets and client RPC operations (`hot_restart.cc`) -/

namespace HotRestart

/-- `2 ^ 64`: `base_id` and the epoch are `uint64_t`, and `base_id + id` is computed in
`uint64_t` arithmetic. -/
def UINT64_MOD : Nat := 2 ^ 64

/-- The `AF_UNIX` address-family constant. -/
def AF_UNIX : Nat := 1

/-- A `sockaddr_un` as built by `createDomainSocketAddress`: the structure is zeroed,
`sun_family` set, `sun_path[0]` left `\0` (abstract namespace) and the printed name
copied from `sun_path[1]` on.  The `strlcpy` bound `sizeof(sun_path) - 1 = 107` never
truncates: the name is 20 characters plus at most 20 decimal digits. -/
structure SockAddrUn where
  sunFamily : Nat
  leadingNulByte : Bool
  abstractName : String
deriving DecidableEq, Repr

/-- `HotRestartImpl::createDomainSocketAddress(id)`: reduce `id` modulo
`MAX_CONCURRENT_PROCESSES = 3` and name the abstract socket
`envoy_domain_socket_<base_id + id>`. -/
def createDomainSocketAddress (baseId : Nat) (id : Nat) : SockAddrUn :=
  { sunFamily := AF_UNIX, leadingNulByte := true,
    abstractName := "envoy_domain_socket_" ++ toString ((baseId + id % 3) % UINT64_MOD) }

/-- The addresses computed by the `HotRestartImpl` constructor: the address bound for this
process (`bindDomainSocket(restart_epoch)`), `child_address_` from `epoch + 1`, and, when
`epoch != 0`, `parent_address_` from `epoch + -1` (which for a nonzero `uint64_t` epoch is
`epoch - 1`). -/
def hotRestartCtorAddresses (baseId epoch : Nat) :
    SockAddrUn × SockAddrUn × Option SockAddrUn :=
  (createDomainSocketAddress baseId epoch,
   createDomainSocketAddress baseId ((epoch + 1) % UINT64_MOD),
   if epoch ≠ 0 then some (createDomainSocketAddress baseId (epoch - 1)) else none)

end HotRestart

/-- C8: every hot-restart domain socket address is an abstract-namespace `AF_UNIX`
address (leading NUL) named `envoy_domain_socket_<base_id + (id mod 3)>`; addresses
repeat with period 3, so at most three distinct addresses exist per `base_id`; the
constructor binds its own epoch's address and computes the child address from
`epoch + 1` and, when `epoch > 0`, the parent address from `epoch - 1`. -/
theorem C8_domainSocketAddresses (baseId id epoch : Nat) (hepoch : 0 < epoch) :
    ((HotRestart.createDomainSocketAddress baseId id).sunFamily = HotRestart.AF_UNIX
   ∧ (HotRestart.createDomainSocketAddress baseId id).leadingNulByte = true
   ∧ (HotRestart.createDomainSocketAddress baseId id).abstractName =
       "envoy_domain_socket_" ++ toString ((baseId + id % 3) % HotRestart.UINT64_MOD))
  ∧ HotRestart.createDomainSocketAddress baseId id =
      HotRestart.createDomainSocketAddress baseId (id % 3)
  ∧ HotRestart.createDomainSocketAddress baseId (id + 3) =
      HotRestart.createDomainSocketAddress baseId id
  ∧ HotRestart.createDomainSocketAddress baseId id ∈
      [HotRestart.createDomainSocketAddress baseId 0,
       HotRestart.createDomainSocketAddress baseId 1,
       HotRestart.createDomainSocketAddress baseId 2]
  ∧ (HotRestart.hotRestartCtorAddresses baseId epoch).1 =
      HotRestart.createDomainSocketAddress baseId epoch
  ∧ (HotRestart.hotRestartCtorAddresses baseId epoch).2.1 =
      HotRestart.createDomainSocketAddress baseId ((epoch + 1) % HotRestart.UINT64_MOD)
  ∧ (HotRestart.hotRestartCtorAddresses baseId epoch).2.2 =
      some (HotRestart.createDomainSocketAddress baseId (epoch - 1))
  ∧ (HotRestart.hotRestartCtorAddresses baseId 0).2.2 = none := by
  have hmod : ∀ n : Nat, n % 3 % 3 = n % 3 := by intro n; omega
  have hper : HotRestart.createDomainSocketAddress baseId id =
      HotRestart.createDomainSocketAddress baseId (id % 3) := by
    simp [HotRestart.createDomainSocketAddress, hmod]
  refine ⟨⟨rfl, rfl, rfl⟩, hper, ?_, ?_, rfl, rfl, ?_, rfl⟩
  · simp [HotRestart.createDomainSocketAddress, (show (id + 3) % 3 = id % 3 by omega)]
  · rw [hper]
    have h3 : id % 3 = 0 ∨ id % 3 = 1 ∨ id % 3 = 2 := by omega
    rcases h3 with h | h | h <;> rw [h] <;> simp
  · simp [HotRestart.hotRestartCtorAddresses, (show epoch ≠ 0 by omega)]

/-- Witness for C8 at `base_id = 10`, `epoch = 1`: the parent address is the epoch-0
address. -/
theorem C8_domainSocketAddresses_witness :
    (HotRestart.hotRestartCtorAddresses 10 1).2.2 =
      some (HotRestart.createDomainSocketAddress 10 0) :=
  (C8_domainSocketAddresses 10 0 1 (by decide)).2.2.2.2.2.2.1

namespace HotRestart

/-- The request messages a hot-restart client operation can put on the wire
(`RpcMessageType` restricted to the requests the client side sends). -/
inductive RpcMsg where
  | shutdownAdminRequest
  | getListenSocketRequest
  | getStatsRequest
  | drainListenersRequest
  | terminateRequest
deriving DecidableEq, Repr

/-- `HotRestart::GetParentStatsInfo`. -/
structure GetParentStatsInfo where
  memoryAllocated : Nat
  numConnections : Nat
deriving DecidableEq, Repr

/-- The client-side state the RPC operations read and write: the process's restart epoch
and the `parent_terminated_` flag. -/
structure HotRestartState where
  restartEpoch : Nat
  parentTerminated : Bool
deriving DecidableEq, Repr

/-- `HotRestartImpl::duplicateParentListenSocket(address)`: epoch 0 returns `-1` without
sending; otherwise send a `GetListenSocketRequest` and return the fd of the typed reply
(the reply fd is a parameter of the model).  Result: (messages sent, returned fd). -/
def duplicateParentListenSocket (st : HotRestartState) (replyFd : Int) :
    List RpcMsg × Int :=
  if st.restartEpoch = 0 then ([], -1)
  else ([RpcMsg.getListenSocketRequest], replyFd)

/-- `HotRestartImpl::getParentStats(info)`: `info` is zeroed first; at epoch 0 or once
`parent_terminated_` is set the call returns with the zeroed info and sends nothing;
otherwise it sends a `GetStatsRequest` and copies the reply's two fields. -/
def getParentStats (st : HotRestartState) (reply : GetParentStatsInfo) :
    List RpcMsg × GetParentStatsInfo :=
  if st.restartEpoch = 0 ∨ st.parentTerminated = true then ([], ⟨0, 0⟩)
  else ([RpcMsg.getStatsRequest], reply)

/-- `HotRestartImpl::drainParentListeners()`: epoch 0 returns immediately; otherwise a
`DrainListenersRequest` is sent, with no reply expected. -/
def drainParentListeners (st : HotRestartState) : List RpcMsg :=
  if st.restartEpoch = 0 then [] else [RpcMsg.drainListenersRequest]

/-- `HotRestartImpl::shutdownParentAdmin(info)`: epoch 0 returns immediately leaving
`info` untouched; otherwise it sends a `ShutdownAdminRequest` and stores the reply's
original start time. -/
def shutdownParentAdmin (st : HotRestartState) (replyStartTime : Nat) (info : Nat) :
    List RpcMsg × Nat :=
  if st.restartEpoch = 0 then ([], info)
  else ([RpcMsg.shutdownAdminRequest], replyStartTime)

/-- `HotRestartImpl::terminateParent()`: at epoch 0 or once `parent_terminated_` is set
it returns without sending; otherwise it sends a `TerminateRequest` and sets
`parent_terminated_`. -/
def terminateParent (st : HotRestartState) : List RpcMsg × HotRestartState :=
  if st.restartEpoch = 0 ∨ st.parentTerminated = true then ([], st)
  else ([RpcMsg.terminateRequest], { st with parentTerminated := true })

/-- A call to one of the five client operations, carrying the reply data the parent
would produce (used only on the sending paths). -/
inductive ClientCall where
  | dupSocket (replyFd : Int)
  | parentStats (reply : GetParentStatsInfo)
  | drain
  | shutdownAdmin (replyStartTime : Nat) (info : Nat)
  | terminate
deriving Repr

/-- One client call: the state after it and the request messages it sent. -/
def runCall (st : HotRestartState) : ClientCall → HotRestartState × List RpcMsg
  | ClientCall.dupSocket fd => (st, (duplicateParentListenSocket st fd).1)
  | ClientCall.parentStats r => (st, (getParentStats st r).1)
  | ClientCall.drain => (st, drainParentListeners st)
  | ClientCall.shutdownAdmin t i => (st, (shutdownParentAdmin st t i).1)
  | ClientCall.terminate => ((terminateParent st).2, (terminateParent st).1)

/-- A sequence of client calls: final state and concatenated request trace. -/
def runCalls (st : HotRestartState) : List ClientCall → HotRestartState × List RpcMsg
  | [] => (st, [])
  | c :: rest =>
    let p := runCall st c
    let q := runCalls p.1 rest
    (q.1, p.2 ++ q.2)

/-- Number of `TerminateRequest` messages in a trace. -/
def countTerminates (msgs : List RpcMsg) : Nat :=
  msgs.count RpcMsg.terminateRequest

theorem runCall_terminated {st : HotRestartState} (c : ClientCall)
    (h : st.parentTerminated = true) :
    (runCall st c).1.parentTerminated = true ∧ countTerminates (runCall st c).2 = 0 := by
  cases c with
  | dupSocket fd =>
    by_cases h0 : st.restartEpoch = 0 <;>
      simp [runCall, duplicateParentListenSocket, countTerminates, h0, h]
  | parentStats r => simp [runCall, getParentStats, countTerminates, h]
  | drain =>
    by_cases h0 : st.restartEpoch = 0 <;>
      simp [runCall, drainParentListeners, countTerminates, h0, h]
  | shutdownAdmin t i =>
    by_cases h0 : st.restartEpoch = 0 <;>
      simp [runCall, shutdownParentAdmin, countTerminates, h0, h]
  | terminate => simp [runCall, terminateParent, countTerminates, h]

theorem runCalls_terminated {st : HotRestartState} (calls : List ClientCall)
    (h : st.parentTerminated = true) :
    countTerminates (runCalls st calls).2 = 0 := by
  induction calls generalizing st with
  | nil => simp [runCalls, countTerminates]
  | cons c rest ih =>
    obtain ⟨h1, h2⟩ := runCall_terminated c h
    simp only [runCalls, countTerminates, List.count_append]
    have := ih h1
    simp only [countTerminates] at h2 this
    omega

theorem runCalls_count_le_one (st : HotRestartState) (calls : List ClientCall) :
    countTerminates (runCalls st calls).2 ≤ 1 := by
  induction calls generalizing st with
  | nil => simp [runCalls, countTerminates]
  | cons c rest ih =>
    simp only [runCalls, countTerminates, List.count_append]
    cases c with
    | dupSocket fd =>
      have h2 : countTerminates (runCall st (ClientCall.dupSocket fd)).2 = 0 := by
        by_cases h0 : st.restartEpoch = 0 <;>
          simp [runCall, duplicateParentListenSocket, countTerminates, h0]
      have h1 : (runCall st (ClientCall.dupSocket fd)).1 = st := rfl
      simp only [countTerminates] at h2
      rw [h1]
      have := ih st
      simp only [countTerminates] at this
      omega
    | parentStats r =>
      have h2 : countTerminates (runCall st (ClientCall.parentStats r)).2 = 0 := by
        by_cases h0 : st.restartEpoch = 0 ∨ st.parentTerminated = true <;>
          simp [runCall, getParentStats, countTerminates, h0]
      have h1 : (runCall st (ClientCall.parentStats r)).1 = st := rfl
      simp only [countTerminates] at h2
      rw [h1]
      have := ih st
      simp only [countTerminates] at this
      omega
    | drain =>
      have h2 : countTerminates (runCall st ClientCall.drain).2 = 0 := by
        by_cases h0 : st.restartEpoch = 0 <;>
          simp [runCall, drainParentListeners, countTerminates, h0]
      have h1 : (runCall st ClientCall.drain).1 = st := rfl
      simp only [countTerminates] at h2
      rw [h1]
      have := ih st
      simp only [countTerminates] at this
      omega
    | shutdownAdmin t i =>
      have h2 : countTerminates (runCall st (ClientCall.shutdownAdmin t i)).2 = 0 := by
        by_cases h0 : st.restartEpoch = 0 <;>
          simp [runCall, shutdownParentAdmin, countTerminates, h0]
      have h1 : (runCall st (ClientCall.shutdownAdmin t i)).1 = st := rfl
      simp only [countTerminates] at h2
      rw [h1]
      have := ih st
      simp only [countTerminates] at this
      omega
    | terminate =>
      by_cases h0 : st.restartEpoch = 0 ∨ st.parentTerminated = true
      · have h2 : (runCall st ClientCall.terminate).2 = [] := by
          simp [runCall, terminateParent, h0]
        have h1 : (runCall st ClientCall.terminate).1 = st := by
          simp [runCall, terminateParent, h0]
        rw [h1, h2]
        have := ih st
        simp only [countTerminates] at this
        simpa using this
      · have h2 : (runCall st ClientCall.terminate).2 = [RpcMsg.terminateRequest] := by
          simp [runCall, terminateParent, h0]
        have h1 : (runCall st ClientCall.terminate).1 =
            { st with parentTerminated := true } := by
          simp [runCall, terminateParent, h0]
        rw [h1, h2]
        have hrest := @runCalls_terminated { st with parentTerminated := true } rest rfl
        simp only [countTerminates] at hrest
        simp [hrest]

end HotRestart

/-- C10: at epoch 0 the client operations send no RPC (`duplicateParentListenSocket`
returns `-1`, `getParentStats` returns all-zero info, the other three return
immediately); after `terminateParent` has set `parent_terminated_`, `getParentStats`
returns all-zero info and `terminateParent` sends nothing, so any call sequence sends at
most one `TerminateRequest`. -/
theorem C10_epoch0_and_single_terminate (st : HotRestart.HotRestartState)
    (fd : Int) (reply : HotRestart.GetParentStatsInfo) (t i : Nat)
    (calls : List HotRestart.ClientCall) :
    (st.restartEpoch = 0 →
        HotRestart.duplicateParentListenSocket st fd = ([], -1)
      ∧ HotRestart.getParentStats st reply = ([], ⟨0, 0⟩)
      ∧ HotRestart.drainParentListeners st = []
      ∧ HotRestart.shutdownParentAdmin st t i = ([], i)
      ∧ HotRestart.terminateParent st = ([], st))
  ∧ (st.parentTerminated = true →
        HotRestart.getParentStats st reply = ([], ⟨0, 0⟩)
      ∧ HotRestart.terminateParent st = ([], st))
  ∧ (st.restartEpoch ≠ 0 → st.parentTerminated = false →
        HotRestart.terminateParent st =
          ([HotRestart.RpcMsg.terminateRequest], { st with parentTerminated := true }))
  ∧ HotRestart.countTerminates (HotRestart.runCalls st calls).2 ≤ 1 := by
  refine ⟨?_, ?_, ?_, HotRestart.runCalls_count_le_one st calls⟩
  · intro h0
    refine ⟨?_, ?_, ?_, ?_, ?_⟩
    · simp [HotRestart.duplicateParentListenSocket, h0]
    · simp [HotRestart.getParentStats, h0]
    · simp [HotRestart.drainParentListeners, h0]
    · simp [HotRestart.shutdownParentAdmin, h0]
    · simp [HotRestart.terminateParent, h0]
  · intro hterm
    exact ⟨by simp [HotRestart.getParentStats, hterm],
           by simp [HotRestart.terminateParent, hterm]⟩
  · intro h0 hterm
    simp [HotRestart.terminateParent, h0, hterm]

/-- Witness for C10 at epoch 0: nothing is sent, the fd is `-1`, the stats are zero, and
a double `terminateParent` trace sends no `TerminateRequest`. -/
theorem C10_epoch0_and_single_terminate_witness :
    HotRestart.duplicateParentListenSocket ⟨0, false⟩ 5 = ([], -1)
  ∧ HotRestart.getParentStats ⟨0, false⟩ ⟨9, 9⟩ = ([], ⟨0, 0⟩)
  ∧ HotRestart.drainParentListeners ⟨0, false⟩ = []
  ∧ HotRestart.shutdownParentAdmin ⟨0, false⟩ 4 7 = ([], 7)
  ∧ HotRestart.terminateParent ⟨0, false⟩ = ([], ⟨0, false⟩) :=
  (C10_epoch0_and_single_terminate ⟨0, false⟩ 5 ⟨9, 9⟩ 4 7
    [HotRestart.ClientCall.terminate, HotRestart.ClientCall.terminate]).1 rfl

/-! ## `Ssl::Connection::uriSanPeerCertificate` (`envoy/ssl/connection.h`) -/

namespace Ssl

/-- One entry of a certificate's Subject Alternative Name field. -/
inductive SanEntry where
  | uri (value : String)
  | dns (value : String)
deriving DecidableEq, Repr

/-- The part of an X.509 certificate the SSL connection interface reads: the SAN field,
a possibly empty list of entries. -/
structure Certificate where
  san : List SanEntry
deriving DecidableEq, Repr

/-- The URI carried by a SAN entry, when it is a URI entry. -/
def sanUri : SanEntry → Option String
  | SanEntry.uri v => some v
  | SanEntry.dns _ => none

/-- First URI entry of a SAN entry list. -/
def firstUriSan : List SanEntry → Option String
  | [] => none
  | e :: rest =>
    match sanUri e with
    | some v => some v
    | none => firstUriSan rest

/-- Modelled from the spec: the implementation of
`Ssl::ConnectionImpl::uriSanPeerCertificate` is not among the source files (only the
interface declaration in `envoy/ssl/connection.h` and the tests are).  Per the interface
documentation and the spec it returns the URI in the SAN field of the peer certificate,
and `""` if there is no peer certificate, no SAN field, or no URI entry. -/
def uriSanPeerCertificate (peer : Option Certificate) : String :=
  match peer with
  | none => ""
  | some cert =>
    match firstUriSan cert.san with
    | some v => v
    | none => ""

theorem firstUriSan_eq_none {san : List SanEntry}
    (h : ∀ e ∈ san, sanUri e = none) : firstUriSan san = none := by
  induction san with
  | nil => rfl
  | cons e rest ih =>
    have he := h e (List.mem_cons_self e rest)
    simp only [firstUriSan, he]
    exact ih (fun x hx => h x (List.mem_cons_of_mem e hx))

theorem firstUriSan_mem {san : List SanEntry} {v : String}
    (h : firstUriSan san = some v) : SanEntry.uri v ∈ san := by
  induction san with
  | nil => simp [firstUriSan] at h
  | cons e rest ih =>
    cases e with
    | uri u =>
      simp only [firstUriSan, sanUri, Option.some.injEq] at h
      subst h
      exact List.mem_cons_self _ _
    | dns d =>
      simp only [firstUriSan, sanUri] at h
      exact List.mem_cons_of_mem _ (ih h)

theorem firstUriSan_isSome {san : List SanEntry} {v : String}
    (h : SanEntry.uri v ∈ san) : (firstUriSan san).isSome := by
  induction san with
  | nil => simp at h
  | cons e rest ih =>
    cases e with
    | uri u => simp [firstUriSan, sanUri]
    | dns d =>
      rcases List.mem_cons.mp h with he | hmem
      · cases he
      · simpa [firstUriSan, sanUri] using ih hmem

end Ssl

/-- C6: the SSL connection interface exposes `uriSanPeerCertificate`; it returns a URI
entry of the peer certificate's SAN field when one is present, and the empty string when
there is no peer certificate or no URI entry (in particular a DNS-only SAN yields `""`). -/
theorem C6_uriSanPeerCertificate (peer : Option Ssl.Certificate) :
    (peer = none → Ssl.uriSanPeerCertificate peer = "")
  ∧ (∀ cert, peer = some cert →
       ((∀ e ∈ cert.san, Ssl.sanUri e = none) → Ssl.uriSanPeerCertificate peer = "")
     ∧ ((∃ v, Ssl.SanEntry.uri v ∈ cert.san) →
        Ssl.SanEntry.uri (Ssl.uriSanPeerCertificate peer) ∈ cert.san)) := by
  constructor
  · intro h; simp [h, Ssl.uriSanPeerCertificate]
  · intro cert hpeer
    subst hpeer
    constructor
    · intro hnone
      simp [Ssl.uriSanPeerCertificate, Ssl.firstUriSan_eq_none hnone]
    · rintro ⟨v, hv⟩
      have hsome := Ssl.firstUriSan_isSome hv
      obtain ⟨u, hu⟩ := Option.isSome_iff_exists.mp hsome
      have hmem := Ssl.firstUriSan_mem hu
      simpa [Ssl.uriSanPeerCertificate, hu] using hmem

/-- Witness for C6: a DNS-only SAN yields `""`, and a URI SAN yields a URI present in the
SAN field. -/
theorem C6_uriSanPeerCertificate_witness :
    Ssl.uriSanPeerCertificate (some ⟨[Ssl.SanEntry.dns "server1.example.com"]⟩) = ""
  ∧ Ssl.SanEntry.uri
      (Ssl.uriSanPeerCertificate (some ⟨[Ssl.SanEntry.uri "server1.example.com"]⟩)) ∈
      [Ssl.SanEntry.uri "server1.example.com"] :=
  ⟨((C6_uriSanPeerCertificate (some ⟨[Ssl.SanEntry.dns "server1.example.com"]⟩)).2
      _ rfl).1 (by decide),
   ((C6_uriSanPeerCertificate (some ⟨[Ssl.SanEntry.uri "server1.example.com"]⟩)).2
      _ rfl).2 ⟨"server1.example.com", by decide⟩⟩

end Envoy
